import Mathlib

/-!
Verification development for the cc-webtools-mcp research orchestrator.

The TypeScript sources are shallowly embedded as executable Lean
definitions: strings are `String`, JavaScript `Set` objects are
insertion-ordered duplicate-free `List String` values, JavaScript
numbers appearing in the relevance scorer are exact rationals (`Rat`),
and the external Claude-CLI capability (search / fetch / plan) is an
explicit oracle parameter.  Stateful code is embedded as explicit state
passing.  Fallible external calls are `Except` values.
-/

/-- Whitespace class of the JavaScript regular-expression `\s` (ASCII part). -/
def isJsSpace (c : Char) : Bool :=
  c = ' ' || c = '\t' || c = '\n' || c = '\x0d' || c = '\x0b' || c = '\x0c'

/-- Word-character class of the JavaScript regular-expression `\w`. -/
def isWordChar (c : Char) : Bool :=
  ('a' ≤ c && c ≤ 'z') || ('A' ≤ c && c ≤ 'Z') || ('0' ≤ c && c ≤ '9') || c = '_'

/-- ASCII upper-case letter, the `[A-Z]` character class. -/
def isAsciiUpper (c : Char) : Bool :=
  'A' ≤ c && c ≤ 'Z'

/-- Membership test used to model the JavaScript `String.prototype.includes`. -/
def strContains (s pat : String) : Bool :=
  decide (pat.toList <:+: s.toList)

/-- Model of `String.prototype.toLowerCase`, written over the character
list so that it evaluates by kernel reduction. -/
def jsToLower (s : String) : String :=
  String.mk (s.toList.map Char.toLower)

/-- Model of `String.prototype.trim` (whitespace stripped from both ends). -/
def jsTrim (s : String) : String :=
  String.mk ((((s.toList.dropWhile isJsSpace).reverse).dropWhile isJsSpace).reverse)

/-- Model of `String.prototype.split` with a single-character separator:
`"a b".split(' ') = ["a","b"]`, `"".split(' ') = [""]`. -/
def splitOnChar (sep : Char) : List Char → List (List Char)
  | [] => [[]]
  | c :: rest =>
    let r := splitOnChar sep rest
    if c = sep then [] :: r
    else
      match r with
      | h :: t => (c :: h) :: t
      | [] => [[c]]

/-- Model of `Array.prototype.join` on strings. -/
def jsJoin (sep : String) (l : List String) : String :=
  String.mk (List.intercalate sep.toList (l.map String.toList))

/-- Model of `Math.max` on two rationals, written with an explicit
comparison so that it evaluates by kernel reduction. -/
def jsMax (a b : Rat) : Rat := if a ≤ b then b else a

/-- Model of `Math.min` on two rationals. -/
def jsMin (a b : Rat) : Rat := if a ≤ b then a else b

/-- Model of JavaScript `Set.prototype.add`: insertion-ordered list, no duplicates. -/
def setAdd (l : List String) (x : String) : List String :=
  if x ∈ l then l else l ++ [x]

/-- Model of `new Set(xs)`: deduplicate keeping first occurrences, in order. -/
def setOfList (xs : List String) : List String :=
  xs.foldl setAdd []

namespace DomainBlocking

/-!
Embedding of `src/domain-blocking.ts`.  The persistent registry file
`~/.web-tools-mcp/blocked-domains.json` is embedded as an explicit
`List String` threaded through the functions that read and write it;
`loadPersistentBlockedDomains` is the identity on that list (its
file-system error handling returns the empty list, which corresponds to
passing `[]`).
-/

/-- Embedding of `savePersistentBlockedDomains` composed with
`loadPersistentBlockedDomains`: `addToPersistentBlockedDomains` loads the
current registry, appends the domain only when it is not already present,
and writes the result back. -/
def addToPersistentBlockedDomains (registry : List String) (domain : String) :
    List String :=
  if domain ∈ registry then registry else registry ++ [domain]

/-- Hostname extraction of `extractDomainFromUrl`.  The source calls the
WHATWG `new URL(url).hostname` built-in; it is modelled here for ordinary
`scheme://host/...` URLs: the characters after `://` up to the first
`/`, `?`, `#` or `:` form the hostname (lower-cased, as the URL parser
normalises it), and a string without a letters-only scheme followed by
`://` or with an empty hostname yields `none` (the constructor throws). -/
def extractDomainFromUrl (url : String) : Option String :=
  let chars := url.toList
  match chars.findIdx? (· = ':') with
  | none => none
  | some i =>
    let scheme := chars.take i
    let rest := chars.drop (i + 1)
    if scheme ≠ [] ∧ scheme.all (fun c => ('a' ≤ c.toLower && c.toLower ≤ 'z')) ∧
        rest.take 2 = ['/', '/'] then
      let hostPart := (rest.drop 2).takeWhile
        (fun c => ¬ (c = '/' ∨ c = '?' ∨ c = '#' ∨ c = ':'))
      if hostPart = [] then none
      else some (String.mk (hostPart.map Char.toLower))
    else none

/-- Classification record returned by `classifyFetchError`
(`FetchErrorClassification` in the source). -/
inductive FetchErrorType where
  | permanent_block
  | session_block
  | continue_research
deriving DecidableEq, Repr

structure FetchErrorClassification where
  type : FetchErrorType
  reason : String
  httpStatus : Option Nat
deriving DecidableEq, Repr

/-- One alternation step of the status-extraction regular expression
`(?:status|code|http)[\s:]*(\d{3})` at a fixed position: if one of the
keywords is a prefix here, skip the run of whitespace/colon characters
and read three digits. -/
def tryStatusAt (l : List Char) : Option Nat :=
  let tryKw : List Char → Option Nat := fun kw =>
    if kw.isPrefixOf l then
      let after := (l.drop kw.length).dropWhile (fun c => isJsSpace c || c = ':')
      match after with
      | d1 :: d2 :: d3 :: _ =>
        if d1.isDigit && d2.isDigit && d3.isDigit then
          some ((d1.toNat - 48) * 100 + (d2.toNat - 48) * 10 + (d3.toNat - 48))
        else none
      | _ => none
    else none
  match tryKw "status".toList with
  | some n => some n
  | none =>
    match tryKw "code".toList with
    | some n => some n
    | none => tryKw "http".toList

/-- Left-to-right scan implementing the first (leftmost) match of the
status-extraction regular expression. -/
def statusScan : List Char → Option Nat
  | [] => none
  | c :: rest =>
    match tryStatusAt (c :: rest) with
    | some n => some n
    | none => statusScan rest

/-- HTTP status extracted from an (already lower-cased) error message by
`errorMessage.match(/(?:status|code|http)[\s:]*(\d{3})/)` followed by
`parseInt`. -/
def extractHttpStatus (em : String) : Option Nat :=
  statusScan em.toList

/-- Embedding of `classifyFetchError`: deterministic pattern match over
the lower-cased error message. -/
def classifyFetchError (message : String) : FetchErrorClassification :=
  let em := jsToLower message
  match extractHttpStatus em with
  | some 403 => ⟨.permanent_block, "HTTP 403 Forbidden", some 403⟩
  | some 401 => ⟨.permanent_block, "HTTP 401 Unauthorized", some 401⟩
  | some 429 => ⟨.permanent_block, "HTTP 429 Rate Limited", some 429⟩
  | _ =>
    if strContains em "timeout" || strContains em "timed out" then
      ⟨.session_block, "Network timeout", none⟩
    else if strContains em "enotfound" || strContains em "getaddrinfo failed" then
      ⟨.session_block, "DNS resolution failed", none⟩
    else if strContains em "econnrefused" || strContains em "connection refused" then
      ⟨.session_block, "Connection refused", none⟩
    else if strContains em "econnreset" || strContains em "connection reset" then
      ⟨.session_block, "Connection reset", none⟩
    else if strContains em "individual fetch timeout" then
      ⟨.session_block, "Fetch timeout", none⟩
    else
      ⟨.continue_research, "Non-blocking error", none⟩

end DomainBlocking

namespace Spec

/-- Reference classifier transcribed from the specification's precedence
table (§4.4), taking the already lower-cased error message; used to state
the refinement claim about `classifyFetchError`. -/
def specClassifyFetchError (em : String) : DomainBlocking.FetchErrorClassification :=
  match DomainBlocking.extractHttpStatus em with
  | some 403 => ⟨.permanent_block, "HTTP 403 Forbidden", some 403⟩
  | some 401 => ⟨.permanent_block, "HTTP 401 Unauthorized", some 401⟩
  | some 429 => ⟨.permanent_block, "HTTP 429 Rate Limited", some 429⟩
  | _ =>
    if strContains em "timeout" || strContains em "timed out" then
      ⟨.session_block, "Network timeout", none⟩
    else if strContains em "enotfound" || strContains em "getaddrinfo failed" then
      ⟨.session_block, "DNS resolution failed", none⟩
    else if strContains em "econnrefused" || strContains em "connection refused" then
      ⟨.session_block, "Connection refused", none⟩
    else if strContains em "econnreset" || strContains em "connection reset" then
      ⟨.session_block, "Connection reset", none⟩
    else if strContains em "individual fetch timeout" then
      ⟨.session_block, "Fetch timeout", none⟩
    else
      ⟨.continue_research, "Non-blocking error", none⟩

end Spec

namespace Helpers

/-!
Embedding of `src/helpers.ts`: content extraction, URL extraction and
the URL relevance scorer used by the research loop.  JavaScript numbers
are embedded as exact rationals.
-/

/-- Anchored match of the title pattern `/^[A-Z][^.!?]*[.!?]?$/`: an
ASCII capital, then no sentence punctuation except optionally at the
very last character. -/
def titleLineMatch (line : String) : Bool :=
  match line.toList with
  | [] => false
  | c :: rest =>
    isAsciiUpper c && rest.dropLast.all (fun d => ¬ (d = '.' ∨ d = '!' ∨ d = '?'))

/-- Global replacement of `/l [^r]+ r/`-shaped bracketed runs by the empty
string (used for `<[^>]+>` tag stripping and `&[^;]+;` entity stripping);
`fuel` bounds the scan, `length` fuel always suffices. -/
def stripEnclosedAux (lc rc : Char) : Nat → List Char → List Char
  | 0, l => l
  | _ + 1, [] => []
  | fuel + 1, c :: rest =>
    if c = lc then
      let body := rest.takeWhile (fun d => ¬ d = rc)
      if body ≠ [] ∧ rest.drop body.length ≠ [] then
        stripEnclosedAux lc rc fuel (rest.drop (body.length + 1))
      else c :: stripEnclosedAux lc rc fuel rest
    else c :: stripEnclosedAux lc rc fuel rest

/-- Global removal of a literal pattern (non-overlapping, left to right),
modelling `String.prototype.replace` with a global literal pattern and
empty replacement. -/
def removeAllAux (pat : List Char) : Nat → List Char → List Char
  | 0, l => l
  | _ + 1, [] => []
  | fuel + 1, c :: rest =>
    if pat.isPrefixOf (c :: rest) then removeAllAux pat fuel ((c :: rest).drop pat.length)
    else c :: removeAllAux pat fuel rest

/-- Title clean-up chain of `enhancedContentExtraction`: strip tags, then
`**`, then `##`, then HTML entities, then trim. -/
def cleanTitle (line : String) : String :=
  let l0 := line.toList
  let l1 := stripEnclosedAux '<' '>' l0.length l0
  let l2 := removeAllAux "**".toList l1.length l1
  let l3 := removeAllAux "##".toList l2.length l2
  let l4 := stripEnclosedAux '&' ';' l3.length l3
  jsTrim (String.mk l4)

/-- Condition under which a line is accepted as a candidate title. -/
def titleCandidate (line : String) : Bool :=
  strContains line "<title>" || strContains line "<h1>" ||
  strContains line "**" || strContains line "##" ||
  (titleLineMatch line && line.length > 10 && line.length < 100)

/-- Title search over the first 10 lines (the `title` accumulator starts
empty and is only written while it is still empty, exactly as the
`!title &&` guard does). -/
def findTitle (lines : List String) : String :=
  (lines.take 10).foldl (fun title l =>
    let line := jsTrim l
    if line = "" then title
    else if title = "" && titleCandidate line then cleanTitle line
    else title) ""

/-- Anchored prefix match of `/^(menu|nav|header|footer|sidebar)/i`
on the lower-cased line. -/
def menuStart (lower : String) : Bool :=
  ["menu", "nav", "header", "footer", "sidebar"].any
    (fun w => w.toList.isPrefixOf lower.toList)

/-- Anchored match of `/^\d+\s*(min|mins|minutes?)\s*(read|ago)/i` on the
lower-cased line, with the regex alternation's backtracking expanded into
the four literal unit alternatives. -/
def minsReadMatch (lower : String) : Bool :=
  let l := lower.toList
  let ds := l.takeWhile Char.isDigit
  if ds.isEmpty then false
  else
    let after := (l.drop ds.length).dropWhile isJsSpace
    ["min", "mins", "minute", "minutes"].any (fun u =>
      u.toList.isPrefixOf after &&
      (let a2 := (after.drop u.length).dropWhile isJsSpace
       "read".toList.isPrefixOf a2 || "ago".toList.isPrefixOf a2))

/-- Occurrence of `w` with `\b` word boundaries on both sides. -/
def hasBoundedWordAux (w : List Char) : Option Char → List Char → Bool
  | _, [] => false
  | prev, c :: rest =>
    ((match prev with | some p => !isWordChar p | none => true) &&
       w.isPrefixOf (c :: rest) &&
       (match (c :: rest).drop w.length with
        | [] => true
        | a :: _ => !isWordChar a))
    || hasBoundedWordAux w (some c) rest

/-- Match of `/\b(because|therefore|however|important|key|main|primary|essential)\b/i`
on the lower-cased line. -/
def hasIndicatorWord (lower : String) : Bool :=
  ["because", "therefore", "however", "important", "key", "main", "primary",
   "essential"].any (fun w => hasBoundedWordAux w.toList none lower.toList)

/-- Anchored match of `/^\d+\./`. -/
def numberedStart (line : String) : Bool :=
  let ds := line.toList.takeWhile Char.isDigit
  !ds.isEmpty && (line.toList.drop ds.length).head? = some '.'

/-- Boilerplate filter of the content loop (navigation, ads, cookie,
subscribe patterns). -/
def isBoilerplate (cleanLine : String) : Bool :=
  strContains cleanLine "cookie" || strContains cleanLine "advertisement" ||
  strContains cleanLine "subscribe" || strContains cleanLine "newsletter" ||
  menuStart (jsToLower cleanLine) || minsReadMatch (jsToLower cleanLine)

/-- Key-point condition of the content loop. -/
def isKeyPoint (cleanLine : String) : Bool :=
  cleanLine.length > 50 && cleanLine.length < 300 &&
  (strContains cleanLine ":" || hasIndicatorWord (jsToLower cleanLine) ||
   numberedStart cleanLine || strContains cleanLine "•" || strContains cleanLine "-")

/-- Content loop of `enhancedContentExtraction`: collects substantial
non-boilerplate lines and key points, in order. -/
def contentScan (lines : List String) : List String × List String :=
  lines.foldl (fun acc line =>
    let cl := jsTrim line
    if cl = "" ∨ cl.length < 10 then acc
    else if isBoilerplate cl then acc
    else if cl.length > 30 then
      (acc.1 ++ [cl], if isKeyPoint cl then acc.2 ++ [cl] else acc.2)
    else acc) ([], [])

/-- Number of maximal whitespace runs in a character list; the length of
`content.split(/\s+/)` is this count plus one. -/
def countWsRuns : Bool → List Char → Nat
  | _, [] => 0
  | prevWs, c :: rest =>
    if isJsSpace c then
      if prevWs then countWsRuns true rest else 1 + countWsRuns true rest
    else countWsRuns false rest

inductive ContentQuality where
  | low
  | medium
  | high
deriving DecidableEq, Repr

/-- `ExtractedContent` record produced by `enhancedContentExtraction`. -/
structure ExtractedContent where
  title : String
  content : String
  quality : ContentQuality
  wordCount : Nat
  keyPoints : List String
deriving DecidableEq, Repr

/-- Embedding of `enhancedContentExtraction`.  The source throws on empty
input (a programming-contract violation), embedded as `Except.error`
carrying the thrown message. -/
def enhancedContentExtraction (rawContent url : String) :
    Except String ExtractedContent :=
  if rawContent = "" then .error "Raw content must be a non-empty string"
  else if url = "" then .error "URL must be a non-empty string"
  else
    let lines := (splitOnChar '\n' rawContent.toList).map String.mk
    let title := findTitle lines
    let scanned := contentScan lines
    let content := jsJoin "\n\n" scanned.1
    let wordCount := countWsRuns false content.toList + 1
    let quality : ContentQuality :=
      if wordCount > 500 ∧ scanned.2.length > 5 then .high
      else if wordCount > 200 ∧ scanned.2.length > 2 then .medium
      else .low
    let finalTitle :=
      match DomainBlocking.extractDomainFromUrl url with
      | some h => if title = "" then "Content from " ++ h else title
      | none => if title = "" then "Unknown Source" else title
    .ok ⟨finalTitle, content, quality, wordCount, scanned.2.take 10⟩

/-- Characters excluded by the URL pattern `[^\s<>"{}|\^` ++ "`" ++ `[\]]`
(brace, backslash and backtick written via their codes). -/
def isUrlStopChar (c : Char) : Bool :=
  isJsSpace c || c = '<' || c = '>' || c = '"' || c = Char.ofNat 123 ||
  c = Char.ofNat 125 || c = '|' || c = Char.ofNat 92 || c = '^' ||
  c = Char.ofNat 96 || c = '[' || c = ']'

/-- One match attempt of `/https?:\/\/[^...]+/` at the current position
(the greedy optional `s` expands into trying `https://` before `http://`). -/
def tryUrlAt (l : List Char) : Option (String × List Char) :=
  let tryScheme : String → Option (String × List Char) := fun sch =>
    if sch.toList.isPrefixOf l then
      let after := l.drop sch.length
      let run := after.takeWhile (fun c => !isUrlStopChar c)
      if run.isEmpty then none
      else some (String.mk (sch.toList ++ run), after.drop run.length)
    else none
  match tryScheme "https://" with
  | some r => some r
  | none => tryScheme "http://"

/-- Left-to-right global scan of the URL pattern (non-overlapping
leftmost matches), with length fuel. -/
def scanUrlsAux : Nat → List Char → List String
  | 0, _ => []
  | _ + 1, [] => []
  | fuel + 1, c :: rest =>
    match tryUrlAt (c :: rest) with
    | some (url, remaining) => url :: scanUrlsAux fuel remaining
    | none => scanUrlsAux fuel rest

/-- All URL-pattern matches in `content`, in order. -/
def scanUrls (content : String) : List String :=
  scanUrlsAux content.toList.length content.toList

/-- Embedding of `extractRelevantLinks` (the source defaults `maxLinks`
to 5; callers pass it explicitly). -/
def extractRelevantLinks (content : String) (maxLinks : Nat) : List String :=
  let urls := scanUrls content
  let relevantUrls := urls.filter (fun url =>
    !strContains url "google.com/search" && !strContains url "javascript:" &&
    !strContains url ".css" && !strContains url ".js" &&
    !strContains url ".png" && !strContains url ".jpg" && !strContains url ".gif")
  (setOfList relevantUrls).take maxLinks

/-- Embedding of the consolidated `scoreUrlRelevance` in `helpers.ts`
(four-parameter version; `title` and `position` are optional and the
research loop passes neither). -/
def scoreUrlRelevance (url query : String) (title : Option String)
    (position : Option Rat) : Rat :=
  let queryTerms := (splitOnChar ' ' (jsToLower query).toList).map String.mk
  let urlLower := jsToLower url
  let s1 : Rat :=
    match position with
    | some p => 0 + jsMax 0 ((10 - p) / 10) * (2/10)
    | none => 0
  let s2 : Rat :=
    match title with
    | some t =>
      let titleLower := jsToLower t
      let s2a := if 20 ≤ t.length ∧ t.length ≤ 80 then s1 + 15/100 else s1
      let matching := (queryTerms.filter (fun term => strContains titleLower term)).length
      let s2b := s2a + ((matching : Rat) / (queryTerms.length : Rat)) * (25/100)
      if strContains (jsToLower t) "buy now" ∨ strContains (jsToLower t) "click here"
      then s2b - 2/10 else s2b
    | none => s1
  let s3 := queryTerms.foldl
    (fun acc term => if strContains urlLower term then acc + 2/10 else acc) s2
  let domain := (((splitOnChar '/' url.toList).map String.mk).getD 2 "")
  let s4 :=
    if ["wikipedia.org", "github.com", "stackoverflow.com", ".edu", ".gov",
        "arxiv.org", "medium.com"].any (fun d => strContains domain d)
    then s3 + 2/10 else s3
  let s5 :=
    if strContains domain "ads" ∨ strContains domain "tracker" ∨ strContains domain "spam"
    then s4 - 3/10 else s4
  let s6 := if url.length > 100 then s5 - 1/10 else s5
  jsMax 0 (jsMin 1 s6)

/-- Scored candidate URL (`ScoredUrl` in the source). -/
structure ScoredUrl where
  url : String
  score : Rat
deriving DecidableEq, Repr

/-- Stable insertion step for descending sort by score; equal scores keep
original order, matching the stable `sort((a, b) => b.score - a.score)`. -/
def insertDesc (x : ScoredUrl) : List ScoredUrl → List ScoredUrl
  | [] => [x]
  | y :: ys => if x.score ≥ y.score then x :: y :: ys else y :: insertDesc x ys

/-- Stable descending sort by score. -/
def sortDesc : List ScoredUrl → List ScoredUrl
  | [] => []
  | x :: xs => insertDesc x (sortDesc xs)

/-- Embedding of `extractLinksWithPriority` (the research loop calls it
with `maxLinks = 3`). -/
def extractLinksWithPriority (content query : String) (maxLinks : Nat) :
    List ScoredUrl :=
  let urls := extractRelevantLinks content (maxLinks * 2)
  let scoredUrls := urls.map (fun url => ScoredUrl.mk url (scoreUrlRelevance url query none none))
  (sortDesc scoredUrls).take maxLinks

end Helpers

namespace ServerIndex

/-- Embedding of the five-parameter `scoreUrlRelevance` in `src/index.ts`
(lines 198-228), the scorer whose formula §4.2 of the specification
states; `snippet` is accepted and ignored, exactly as in the source. -/
def scoreUrlRelevance (url title snippet : String) (position : Rat)
    (originalQuery : String) : Rat :=
  let s1 : Rat := 0 + jsMax 0 ((10 - position) / 10) * (3/10)
  let s2 := if 20 ≤ title.length ∧ title.length ≤ 80 then s1 + 2/10 else s1
  let queryTerms := (splitOnChar ' ' (jsToLower originalQuery).toList).map String.mk
  let titleLower := jsToLower title
  let matching := (queryTerms.filter (fun term => strContains titleLower term)).length
  let s3 := s2 + ((matching : Rat) / (queryTerms.length : Rat)) * (3/10)
  let domain := (((splitOnChar '/' url.toList).map String.mk).getD 2 "")
  let s4 :=
    if strContains domain "wikipedia" ∨ strContains domain "gov" ∨ strContains domain "edu"
    then s3 + 15/100 else s3
  let s5 :=
    if strContains domain "ads" ∨ strContains titleLower "buy now" ∨
       strContains titleLower "click here"
    then s4 - 2/10 else s4
  jsMax 0 (jsMin 1 s5)

end ServerIndex

namespace Spec

/-- Clamp to the unit interval. -/
def clamp01 (x : Rat) : Rat := jsMax 0 (jsMin 1 x)

/-- Relevance-score formula exactly as claimed (with the query-term
coverage counting DISTINCT matching terms), for comparison with the
implemented scorer. -/
def claimedScore (url title query : String) (position : Rat) : Rat :=
  let queryTerms := (splitOnChar ' ' (jsToLower query).toList).map String.mk
  let titleLower := jsToLower title
  let distinctMatching :=
    ((setOfList queryTerms).filter (fun term => strContains titleLower term)).length
  let domain := (((splitOnChar '/' url.toList).map String.mk).getD 2 "")
  clamp01 (jsMax 0 ((10 - position) / 10) * (3/10)
    + (if 20 ≤ title.length ∧ title.length ≤ 80 then (2/10 : Rat) else 0)
    + ((distinctMatching : Rat) / (queryTerms.length : Rat)) * (3/10)
    + (if strContains domain "wikipedia" ∨ strContains domain "gov" ∨
          strContains domain "edu" then (15/100 : Rat) else 0)
    - (if strContains domain "ads" ∨ strContains titleLower "buy now" ∨
          strContains titleLower "click here" then (2/10 : Rat) else 0))

/-- Relevance-score formula with the coverage term counting matching
query terms WITH multiplicity (as the implementation does); this is the
amended form of the claim. -/
def amendedScore (url title query : String) (position : Rat) : Rat :=
  let queryTerms := (splitOnChar ' ' (jsToLower query).toList).map String.mk
  let titleLower := jsToLower title
  let matching := (queryTerms.filter (fun term => strContains titleLower term)).length
  let domain := (((splitOnChar '/' url.toList).map String.mk).getD 2 "")
  clamp01 (jsMax 0 ((10 - position) / 10) * (3/10)
    + (if 20 ≤ title.length ∧ title.length ≤ 80 then (2/10 : Rat) else 0)
    + ((matching : Rat) / (queryTerms.length : Rat)) * (3/10)
    + (if strContains domain "wikipedia" ∨ strContains domain "gov" ∨
          strContains domain "edu" then (15/100 : Rat) else 0)
    - (if strContains domain "ads" ∨ strContains titleLower "buy now" ∨
          strContains titleLower "click here" then (2/10 : Rat) else 0))

end Spec

namespace ResearchAgent

/-- `ExtractedQuote` record from `src/types.ts`. -/
structure ExtractedQuote where
  quote : String
  source_url : String
  objective_ids : List String
  timestamp : String
deriving DecidableEq, Repr

/-- Dedup key built in `deduplicateQuotes`:
`` `${quote.quote.slice(0, 100)}-${quote.source_url}` ``. -/
def dedupKey (q : ExtractedQuote) : String :=
  String.mk (q.quote.toList.take 100) ++ "-" ++ q.source_url

/-- Filter-with-seen-set core of `deduplicateQuotes`; the JavaScript
closure over the mutable `seen` set becomes explicit accumulator passing. -/
def dedupAux (seen : List String) : List ExtractedQuote → List ExtractedQuote
  | [] => []
  | q :: qs =>
    if dedupKey q ∈ seen then dedupAux seen qs
    else q :: dedupAux (dedupKey q :: seen) qs

/-- Embedding of `deduplicateQuotes`. -/
def deduplicateQuotes (quotes : List ExtractedQuote) : List ExtractedQuote :=
  dedupAux [] quotes

/-- `ResearchObjective` record from `src/types.ts`. -/
structure ResearchObjective where
  id : String
  question : String
  completed : Bool
deriving DecidableEq, Repr

/-- `ObjectiveStatus` record from `src/types.ts`. -/
structure ObjectiveStatus where
  objective_id : String
  completed : Bool
  supporting_quotes : List ExtractedQuote
deriving DecidableEq, Repr

/-- `ResearchState` record from `src/types.ts`; the two JavaScript `Set`
fields become insertion-ordered duplicate-free lists. -/
structure ResearchState where
  objectives : List ResearchObjective
  accumulated_quotes : List ExtractedQuote
  objective_status : List ObjectiveStatus
  iteration_count : Nat
  source_tracker : List String
  failed_domains : List String
  last_query : String
deriving DecidableEq, Repr

/-- Embedding of `initializeResearchState`.  The call to
`loadPersistentBlockedDomains` becomes the explicit `persistentBlocked`
argument (the registry contents at session start); `new Set(persistentBlocked)`
is `setOfList`. -/
def initializeResearchState (objectives : List String) (startingQuery : String)
    (persistentBlocked : List String) : ResearchState :=
  let researchObjectives := objectives.enum.map
    (fun p => ResearchObjective.mk (toString (p.1 + 1)) p.2 false)
  let objectiveStatus := researchObjectives.map
    (fun obj => ObjectiveStatus.mk obj.id false [])
  { objectives := researchObjectives
    accumulated_quotes := []
    objective_status := objectiveStatus
    iteration_count := 0
    source_tracker := []
    failed_domains := setOfList persistentBlocked
    last_query := startingQuery }

/-- In-place update of the first status whose `objective_id` matches
(`state.objective_status.find(...)` followed by mutation of the found
record): the quote is pushed and `completed` recomputed from the new
length. -/
def updateStatusForQuote (objectiveId : String) (q : ExtractedQuote) :
    List ObjectiveStatus → List ObjectiveStatus
  | [] => []
  | st :: rest =>
    if st.objective_id = objectiveId then
      { st with supporting_quotes := st.supporting_quotes ++ [q],
                completed := decide ((st.supporting_quotes ++ [q]).length ≥ 2) } :: rest
    else st :: updateStatusForQuote objectiveId q rest

/-- Inner loop of `saveExtractedQuotes` for one quote: one status update
per referenced objective id. -/
def applyQuote (statuses : List ObjectiveStatus) (q : ExtractedQuote) :
    List ObjectiveStatus :=
  q.objective_ids.foldl (fun sts oid => updateStatusForQuote oid q sts) statuses

/-- Embedding of `saveExtractedQuotes`: append the new quotes, update the
statuses, then copy each status's `completed` flag back onto its
objective. -/
def saveExtractedQuotes (state : ResearchState) (newQuotes : List ExtractedQuote) :
    ResearchState :=
  let statuses := newQuotes.foldl applyQuote state.objective_status
  let objectives := state.objectives.map (fun obj =>
    match statuses.find? (fun st => st.objective_id = obj.id) with
    | some st => { obj with completed := st.completed }
    | none => obj)
  { state with
      accumulated_quotes := state.accumulated_quotes ++ newQuotes
      objective_status := statuses
      objectives := objectives }

/-- Result record of `assessObjectiveCompletion`.  Note that in the source
`completionRate` is `completed.length / state.objectives.length` on
JavaScript numbers, so with zero objectives it is `0/0 = NaN`; the rational
embedding yields `0` there.  The rate feeds only the final summary text,
never the control flow. -/
structure CompletionAssessment where
  allComplete : Bool
  completionRate : Rat
  incompleteObjectives : List ResearchObjective
deriving DecidableEq, Repr

/-- Embedding of `assessObjectiveCompletion`. -/
def assessObjectiveCompletion (state : ResearchState) : CompletionAssessment :=
  let completed := state.objectives.filter (fun obj => obj.completed)
  let incomplete := state.objectives.filter (fun obj => !obj.completed)
  { allComplete := decide (completed.length = state.objectives.length)
    completionRate := (completed.length : Rat) / (state.objectives.length : Rat)
    incompleteObjectives := incomplete }

/-- One quote as returned by the external plan/quote-extraction call
before the loop stamps the source URL onto it (`q.quote`,
`q.objective_ids`, and the `new Date().toISOString()` timestamp, which is
oracle-supplied since it is environment input). -/
structure PlanQuote where
  text : String
  objective_ids : List String
  timestamp : String
deriving DecidableEq, Repr

/-- Outcome of one `analyzeContentAndPlan` call.  In the source that
function wraps the external Claude CLI invocation and JSON parsing and
catches every failure, returning `{extracted_quotes: [], next_query: ""}`
on any error, so its behaviour is exactly an arbitrary total function —
the oracle below supplies it per (iteration, url). -/
structure PlanResult where
  quotes : List PlanQuote
  next_query : String
deriving DecidableEq, Repr

/-- Behaviour of the external Claude-CLI capability for one session.
`search` and `fetch` either return the `results` text of the `ToolResult`
or reject with an `Error` whose message is the carried string; `plan` is
total (see `PlanResult`).  Because a run is deterministic given these
responses, indexing by iteration number (and URL for the per-URL calls)
captures every possible external behaviour. -/
structure Oracle where
  search : Nat → Except String String
  fetch : Nat → String → Except String String
  plan : Nat → String → PlanResult

/-- Terminal reason of a session (`termination_reason` in the source). -/
inductive TerminationReason where
  | all_objectives_complete
  | max_calls_reached
  | no_new_information
deriving DecidableEq, Repr

/-- `ResearchAgentResult` record from `src/types.ts`. -/
structure ResearchAgentResult where
  completed_objectives : List ObjectiveStatus
  all_quotes : List ExtractedQuote
  iteration_count : Nat
  termination_reason : TerminationReason
  final_summary : String
deriving DecidableEq, Repr

/-- Loop state of one `executeResearchAgent` run: the mutable
`ResearchState`, the persisted registry, the current query and
termination reason, a `done` flag for the `break`, and `fetched`, an
instrumentation trace listing every URL for which the external fetch
capability was actually invoked. -/
structure RunState where
  research : ResearchState
  registry : List String
  currentQuery : String
  reason : TerminationReason
  done : Bool
  fetched : List String
deriving DecidableEq, Repr

/-- Error handling of one failed fetch (the `switch` on
`classifyFetchError` in the fetch promise's catch block), given the
hostname extracted in the prologue.  Returns the updated registry and
research state. -/
def handleFetchError (registry : List String) (state : ResearchState)
    (domain : String) (errorMessage : String) : List String × ResearchState :=
  let classification := DomainBlocking.classifyFetchError errorMessage
  match classification.type with
  | .permanent_block =>
    (DomainBlocking.addToPersistentBlockedDomains registry domain, state)
  | .session_block =>
    (registry, { state with failed_domains := setAdd state.failed_domains domain })
  | .continue_research => (registry, state)

/-- Candidate filter done synchronously at the start of each fetch
promise: skip URLs already in `source_tracker` and URLs whose extractable
hostname is in `failed_domains`.  All checks run against the
pre-iteration state, before any fetch resolves. -/
def shouldFetch (state : ResearchState) (url : String) : Bool :=
  !state.source_tracker.contains url &&
  (match DomainBlocking.extractDomainFromUrl url with
   | some d => !state.failed_domains.contains d
   | none => true)

/-- Processing of one fetch result (the body of one fetch promise after
the prologue): successful substantial extractions are recorded in
`source_tracker` and queued; short or empty results are skipped; errors
(including the raced 'Individual fetch timeout' rejection and the
contract-violation throw of `enhancedContentExtraction`) go through
`handleFetchError` when a hostname is extractable. -/
def processFetch (o : Oracle) (iter : Nat)
    (acc : ResearchState × List String × List (String × Helpers.ExtractedContent))
    (url : String) :
    ResearchState × List String × List (String × Helpers.ExtractedContent) :=
  let state := acc.1
  let registry := acc.2.1
  let successes := acc.2.2
  match o.fetch iter url with
  | .ok text =>
    if text ≠ "" then
      match Helpers.enhancedContentExtraction text url with
      | .ok extracted =>
        if extracted.content.length > 500 then
          ({ state with source_tracker := setAdd state.source_tracker url },
           registry, successes ++ [(url, extracted)])
        else (state, registry, successes)
      | .error msg =>
        match DomainBlocking.extractDomainFromUrl url with
        | some d =>
          let hr := handleFetchError registry state d msg
          (hr.2, hr.1, successes)
        | none => (state, registry, successes)
    else (state, registry, successes)
  | .error msg =>
    match DomainBlocking.extractDomainFromUrl url with
    | some d =>
      let hr := handleFetchError registry state d msg
      (hr.2, hr.1, successes)
    | none => (state, registry, successes)

/-- Analysis phase for the successful fetches of one iteration:
`analyzeContentAndPlan` per source (oracle-supplied outcome with the
source URL stamped onto each quote), quotes merged in order, and the
first non-empty `next_query` suggestion adopted as `last_query`. -/
def analysisPhase (o : Oracle) (iter : Nat) (state : ResearchState)
    (successes : List (String × Helpers.ExtractedContent)) : ResearchState :=
  let step := successes.foldl (fun (acc : ResearchState × String) su =>
    let pr := o.plan iter su.1
    let quotes := pr.quotes.map (fun q =>
      ExtractedQuote.mk q.text su.1 q.objective_ids q.timestamp)
    let res := if quotes.isEmpty then acc.1 else saveExtractedQuotes acc.1 quotes
    let best := if pr.next_query ≠ "" ∧ acc.2 = "" then pr.next_query else acc.2
    (res, best)) (state, "")
  if step.2 ≠ "" then { step.1 with last_query := step.2 } else step.1

/-- Steps 3 and the analysis part of one iteration: fold the fetch
processing over the filtered candidates (starting from the pre-iteration
state and registry, with an empty success queue), then run the analysis
phase when any fetch succeeded substantially.  Returns the updated
research state and registry. -/
def fetchAnalyzePhase (o : Oracle) (iter : Nat) (research0 : ResearchState)
    (registry : List String) (toFetch : List String) :
    ResearchState × List String :=
  let fetchOut := toFetch.foldl (processFetch o iter) (research0, registry, [])
  let research2 := fetchOut.1
  let registry2 := fetchOut.2.1
  let successes := fetchOut.2.2
  (if successes.isEmpty then research2 else analysisPhase o iter research2 successes,
   registry2)

/-- One iteration of the research loop (the body of the `for` loop in
`executeResearchAgent`), for iteration number `iter`. -/
def runIteration (o : Oracle) (maxCalls : Int) (iter : Nat) (rs : RunState) :
    RunState :=
  let research0 := { rs.research with iteration_count := iter }
  match o.search iter with
  | .error _ => { rs with research := research0 }
  | .ok searchContent =>
    let priorityUrls := Helpers.extractLinksWithPriority searchContent rs.currentQuery 3
    if priorityUrls.isEmpty then { rs with research := research0 }
    else
      let toFetch := (priorityUrls.map (fun su => su.url)).filter
        (shouldFetch research0)
      let fa := fetchAnalyzePhase o iter research0 rs.registry toFetch
      let completion := assessObjectiveCompletion fa.1
      if completion.allComplete then
        { research := fa.1, registry := fa.2
          currentQuery := rs.currentQuery, reason := .all_objectives_complete
          done := true, fetched := rs.fetched ++ toFetch }
      else
        let newQuery :=
          if (iter : Int) < maxCalls ∧ fa.1.last_query ≠ "" then fa.1.last_query
          else rs.currentQuery
        { research := fa.1, registry := fa.2
          currentQuery := newQuery, reason := rs.reason
          done := false, fetched := rs.fetched ++ toFetch }

/-- The `for` loop of `executeResearchAgent`: iterations count up from 1
while fuel remains; the `break` on completion is the `done` flag. -/
def runLoop (o : Oracle) (maxCalls : Int) : Nat → Nat → RunState → RunState
  | _, 0, rs => rs
  | iter, fuel + 1, rs =>
    let rs' := runIteration o maxCalls iter rs
    if rs'.done then rs' else runLoop o maxCalls (iter + 1) fuel rs'

/-- `ResearchAgentParams` record from `src/types.ts` (`max_calls` is the
optional caller-supplied budget). -/
structure ResearchAgentParams where
  objectives : List String
  starting_query : String
  max_calls : Option Int
  allowed_domains : Option (List String)
  blocked_domains : Option (List String)

/-- The effective iteration budget `params.max_calls || 5`: both an
omitted and a zero `max_calls` fall back to 5, because `0` is falsy in
JavaScript. -/
def effectiveMaxCalls (params : ResearchAgentParams) : Int :=
  match params.max_calls with
  | none => 5
  | some n => if n = 0 then 5 else n

/-- Full run of the loop, producing the final `RunState` (including the
fetch-invocation trace).  `registry0` is the persisted blocked-domain
registry at session start. -/
def runResearch (o : Oracle) (params : ResearchAgentParams)
    (registry0 : List String) : RunState :=
  let maxCalls := effectiveMaxCalls params
  let state0 := initializeResearchState params.objectives params.starting_query registry0
  runLoop o maxCalls 1 maxCalls.toNat
    { research := state0, registry := registry0
      currentQuery := params.starting_query, reason := .max_calls_reached
      done := false, fetched := [] }

/-- Embedding of `executeResearchAgent`: run the loop, deduplicate the
accumulated quotes, and build the result record (the summary text is
assembled from the same quantities as the template string in the
source). -/
def executeResearchAgent (o : Oracle) (params : ResearchAgentParams)
    (registry0 : List String) : ResearchAgentResult :=
  let rs := runResearch o params registry0
  let finalState := { rs.research with
    accumulated_quotes := deduplicateQuotes rs.research.accumulated_quotes }
  let finalCompletion := assessObjectiveCompletion finalState
  let totalQuotes := finalState.accumulated_quotes.length
  let sourcesCount := finalState.source_tracker.length
  let finalSummary :=
    "Research completed after " ++ toString finalState.iteration_count ++
    " iterations. Objectives completed: " ++
    toString (finalCompletion.completionRate * 100) ++ "% (" ++
    toString (finalState.objectives.filter (fun o => o.completed)).length ++ "/" ++
    toString finalState.objectives.length ++ "). Total quotes extracted: " ++
    toString totalQuotes ++ " from " ++ toString sourcesCount ++ " sources."
  { completed_objectives := finalState.objective_status
    all_quotes := finalState.accumulated_quotes
    iteration_count := finalState.iteration_count
    termination_reason := rs.reason
    final_summary := finalSummary }

end ResearchAgent

namespace ResearchAgent

/-- Status-level completion invariant, decidably: every `ObjectiveStatus`
has `completed` exactly when it holds at least two supporting quotes. -/
def statusInvB (s : ResearchState) : Bool :=
  s.objective_status.all
    (fun st => st.completed == decide (st.supporting_quotes.length ≥ 2))

/-- Objective-level completion invariant, decidably: every objective's
`completed` flag equals the ≥2-quotes condition of its `ObjectiveStatus`
(the first status with a matching id, as `find` returns). -/
def flagInvB (s : ResearchState) : Bool :=
  s.objectives.all (fun obj =>
    match s.objective_status.find? (fun st => st.objective_id = obj.id) with
    | some st => obj.completed == decide (st.supporting_quotes.length ≥ 2)
    | none => true)

/-- Status-level completion invariant as a proposition. -/
def StatusInvP (sts : List ObjectiveStatus) : Prop :=
  ∀ st ∈ sts, st.completed = decide (st.supporting_quotes.length ≥ 2)

/-- Loop invariant for the persisted-blocklist claim: the session's
`failed_domains` always contains every hostname persisted at session
start, and no URL whose extractable hostname was persisted at session
start ever enters the fetch-invocation trace. -/
def BlockInv (registry0 : List String) (rs : RunState) : Prop :=
  (∀ d ∈ registry0, d ∈ rs.research.failed_domains) ∧
  (∀ url ∈ rs.fetched, ∀ d, DomainBlocking.extractDomainFromUrl url = some d →
     d ∉ registry0)

/-- Oracle whose search always succeeds with empty results and whose
fetch returns no text: the loop sees zero candidate URLs each
iteration. -/
def trivialOracle : Oracle :=
  { search := fun _ => .ok ""
    fetch := fun _ _ => .ok ""
    plan := fun _ _ => ⟨[], ""⟩ }

/-- Oracle whose search output contains one URL and whose fetch returns
no text. -/
def urlOracle : Oracle :=
  { search := fun _ => .ok "see http://example.com/a now"
    fetch := fun _ _ => .ok ""
    plan := fun _ _ => ⟨[], ""⟩ }

/-- Oracle whose search output names a URL on the persistently blocked
host `blocked.com`. -/
def blockedHostOracle : Oracle :=
  { search := fun _ => .ok "see http://blocked.com/x now"
    fetch := fun _ _ => .ok ""
    plan := fun _ _ => ⟨[], ""⟩ }

/-- Caller parameters with `max_calls = 0`. -/
def zeroCallsParams : ResearchAgentParams :=
  ⟨["q"], "x", some 0, none, none⟩

/-- Caller parameters with empty objectives and empty starting query. -/
def emptyInputParams : ResearchAgentParams :=
  ⟨[], "", some 1, none, none⟩

/-- Caller parameters with empty objectives but a non-empty query. -/
def noObjectivesParams : ResearchAgentParams :=
  ⟨[], "x", some 1, none, none⟩

/-- Ordinary caller parameters used to exercise the blocked-host run. -/
def blockedRunParams : ResearchAgentParams :=
  ⟨["q"], "x", some 1, none, none⟩

/-- A concrete initialized state with two objectives, for instantiating
the completion-invariant theorem. -/
def sampleState : ResearchState :=
  initializeResearchState ["alpha", "beta"] "q0" []

/-- Two concrete quotes referencing the sample objectives. -/
def sampleQuotes : List ExtractedQuote :=
  [⟨"first quote text", "http://e.com/1", ["1"], "t1"⟩,
   ⟨"second quote text", "http://e.com/2", ["1", "2"], "t2"⟩]

end ResearchAgent

section DedupLemmas

open ResearchAgent

theorem dedupAux_keys_fresh (l : List ExtractedQuote) :
    ∀ seen : List String,
      (∀ q ∈ dedupAux seen l, dedupKey q ∉ seen) ∧
      (dedupAux seen l).Pairwise (fun a b => dedupKey a ≠ dedupKey b) := by
  induction l with
  | nil => intro seen; simp [dedupAux]
  | cons q qs ih =>
    intro seen
    by_cases h : dedupKey q ∈ seen
    · simpa [dedupAux, h] using ih seen
    · have ihq := ih (dedupKey q :: seen)
      rw [dedupAux, if_neg h]
      constructor
      · intro r hr
        rcases List.mem_cons.mp hr with rfl | hr'
        · exact h
        · have := ihq.1 r hr'
          exact fun hc => this (List.mem_cons_of_mem _ hc)
      · refine List.Pairwise.cons ?_ ihq.2
        intro r hr
        have := ihq.1 r hr
        intro hc
        exact this (by rw [hc]; exact List.mem_cons_self _ _)

theorem dedupAux_of_fresh (l : List ExtractedQuote) :
    ∀ seen : List String,
      (∀ q ∈ l, dedupKey q ∉ seen) →
      l.Pairwise (fun a b => dedupKey a ≠ dedupKey b) →
      dedupAux seen l = l := by
  induction l with
  | nil => intro seen _ _; rfl
  | cons q qs ih =>
    intro seen hfresh hpw
    have hq : dedupKey q ∉ seen := hfresh q (by simp)
    have hpw' := List.pairwise_cons.mp hpw
    rw [dedupAux, if_neg hq]
    congr 1
    apply ih
    · intro r hr
      intro hc
      rcases List.mem_cons.mp hc with hc1 | hc2
      · exact hpw'.1 r hr hc1.symm
      · exact hfresh r (by simp [hr]) hc2
    · exact hpw'.2

end DedupLemmas

section ClampLemmas

theorem le_jsMax_left (a b : Rat) : a ≤ jsMax a b := by
  unfold jsMax
  split_ifs with h
  · exact h
  · exact le_refl a

theorem jsMax_le (a b c : Rat) (h1 : a ≤ c) (h2 : b ≤ c) : jsMax a b ≤ c := by
  unfold jsMax
  split_ifs
  · exact h2
  · exact h1

theorem jsMin_le_left (a b : Rat) : jsMin a b ≤ a := by
  unfold jsMin
  split_ifs with h
  · exact le_refl a
  · exact le_of_not_le h

end ClampLemmas

/-- Claim C8: `deduplicateQuotes` is idempotent — deduplicating its own
output (first-100-characters-plus-source-URL key, first occurrence kept,
order preserved) returns it unchanged. -/
theorem deduplicateQuotes_idempotent (qs : List ResearchAgent.ExtractedQuote) :
    ResearchAgent.deduplicateQuotes (ResearchAgent.deduplicateQuotes qs) =
      ResearchAgent.deduplicateQuotes qs := by
  apply dedupAux_of_fresh
  · intro q _
    simp
  · exact (dedupAux_keys_fresh qs []).2

/-- Claim C4: `classifyFetchError` is a deterministic first-match-wins
pattern match over the lower-cased message, agreeing everywhere with the
classifier transcribed from the specification's precedence table; in
particular "HTTP 403" maps to a permanent block carrying status 403,
"connection timed out" to a session block with reason "Network timeout",
and "unexpected token" to a continue classification. -/
theorem classifyFetchError_follows_spec :
    (∀ msg, DomainBlocking.classifyFetchError msg =
       Spec.specClassifyFetchError (jsToLower msg)) ∧
    DomainBlocking.classifyFetchError "HTTP 403" =
      ⟨.permanent_block, "HTTP 403 Forbidden", some 403⟩ ∧
    DomainBlocking.classifyFetchError "connection timed out" =
      ⟨.session_block, "Network timeout", none⟩ ∧
    DomainBlocking.classifyFetchError "unexpected token" =
      ⟨.continue_research, "Non-blocking error", none⟩ :=
  ⟨fun _ => rfl, by decide, by decide, by decide⟩

/-- Claim C7 counterexample: with query "a a" (a repeated term matching
the title), the implemented score counts matching terms with multiplicity
(2 of 2), while the claimed formula counts distinct matching terms (1 of
2); at this input the implementation yields 3/5 and the claimed formula
9/20. -/
theorem scoreUrlRelevance_distinct_counterexample :
    ServerIndex.scoreUrlRelevance "http://x.com/" "a" "" 0 "a a" ≠
      Spec.claimedScore "http://x.com/" "a" "a a" 0 ∧
    ServerIndex.scoreUrlRelevance "http://x.com/" "a" "" 0 "a a" = 3/5 ∧
    Spec.claimedScore "http://x.com/" "a" "a a" 0 = 9/20 := by
  refine ⟨?_, ?_, ?_⟩ <;> with_unfolding_all decide

/-- Claim C7 (amended): for every url, title, snippet, position and
query, the `index.ts` relevance score equals the clamp to [0,1] of the
claimed weighted sum with the coverage term counting matching query terms
with multiplicity; consequently the score always lies in [0,1]. -/
theorem scoreUrlRelevance_eq_amendedScore (url title snippet query : String)
    (position : Rat) :
    ServerIndex.scoreUrlRelevance url title snippet position query =
      Spec.amendedScore url title query position ∧
    0 ≤ ServerIndex.scoreUrlRelevance url title snippet position query ∧
    ServerIndex.scoreUrlRelevance url title snippet position query ≤ 1 := by
  refine ⟨?_, ?_, ?_⟩
  · simp only [ServerIndex.scoreUrlRelevance, Spec.amendedScore, Spec.clamp01]
    split_ifs <;>
      exact congrArg (fun x => jsMax 0 (jsMin 1 x)) (by ring)
  · exact le_jsMax_left 0 _
  · exact jsMax_le 0 _ 1 (by norm_num) (jsMin_le_left 1 _)

/-- Claim C2: with `max_calls = 0` the loop does NOT return immediately —
`params.max_calls || 5` treats 0 as unset, so the effective budget is 5
and the run performs five full iterations (here under an oracle whose
searches yield no candidate URLs), ending with `iteration_count = 5`
rather than the claimed 0. -/
theorem maxCalls_zero_runs_five_iterations :
    (ResearchAgent.executeResearchAgent ResearchAgent.trivialOracle
        ResearchAgent.zeroCallsParams []).iteration_count = 5 ∧
    (ResearchAgent.executeResearchAgent ResearchAgent.trivialOracle
        ResearchAgent.zeroCallsParams []).termination_reason = .max_calls_reached ∧
    (ResearchAgent.executeResearchAgent ResearchAgent.trivialOracle
        ResearchAgent.zeroCallsParams []).all_quotes = [] ∧
    ResearchAgent.effectiveMaxCalls ResearchAgent.zeroCallsParams = 5 := by
  refine ⟨?_, ?_, ?_, ?_⟩ <;> with_unfolding_all decide

namespace ResearchAgent

/-- Fold preservation of a predicate. -/
theorem foldl_preserve {α β : Type _} (P : α → Prop) (f : α → β → α)
    (h : ∀ a b, P a → P (f a b)) : ∀ (l : List β) (a : α), P a → P (l.foldl f a) := by
  intro l
  induction l with
  | nil => intro a ha; exact ha
  | cons b bs ih => intro a ha; exact ih (f a b) (h a b ha)

theorem statusInvB_iff (s : ResearchState) :
    statusInvB s = true ↔ StatusInvP s.objective_status := by
  simp [statusInvB, StatusInvP, List.all_eq_true]

theorem updateStatusForQuote_preserves (oid : String) (q : ExtractedQuote) :
    ∀ sts, StatusInvP sts → StatusInvP (updateStatusForQuote oid q sts) := by
  intro sts
  induction sts with
  | nil => intro _ st hst; cases hst
  | cons st rest ih =>
    intro h x hx
    rw [updateStatusForQuote] at hx
    split at hx
    · rcases List.mem_cons.mp hx with rfl | hx'
      · simp
      · exact h x (List.mem_cons_of_mem _ hx')
    · rcases List.mem_cons.mp hx with rfl | hx'
      · exact h x (List.mem_cons_self _ _)
      · exact ih (fun y hy => h y (List.mem_cons_of_mem _ hy)) x hx'

theorem applyQuote_preserves (sts : List ObjectiveStatus) (q : ExtractedQuote)
    (h : StatusInvP sts) : StatusInvP (applyQuote sts q) :=
  foldl_preserve StatusInvP (fun acc oid => updateStatusForQuote oid q acc)
    (fun acc oid ha => updateStatusForQuote_preserves oid q acc ha)
    q.objective_ids sts h

theorem saveExtractedQuotes_statusInv (s : ResearchState)
    (newQuotes : List ExtractedQuote) (h : StatusInvP s.objective_status) :
    StatusInvP (saveExtractedQuotes s newQuotes).objective_status :=
  foldl_preserve StatusInvP applyQuote applyQuote_preserves newQuotes
    s.objective_status h

theorem saveExtractedQuotes_flagInv (s : ResearchState)
    (newQuotes : List ExtractedQuote) (h : StatusInvP s.objective_status) :
    flagInvB (saveExtractedQuotes s newQuotes) = true := by
  have hstat : StatusInvP (saveExtractedQuotes s newQuotes).objective_status :=
    saveExtractedQuotes_statusInv s newQuotes h
  rw [flagInvB, List.all_eq_true]
  intro obj' hobj'
  have hobjs : (saveExtractedQuotes s newQuotes).objectives =
      s.objectives.map (fun obj =>
        match (saveExtractedQuotes s newQuotes).objective_status.find?
            (fun st => st.objective_id = obj.id) with
        | some st => { obj with completed := st.completed }
        | none => obj) := rfl
  rw [hobjs] at hobj'
  rcases List.mem_map.mp hobj' with ⟨obj, hobj, rfl⟩
  rcases hfind : (saveExtractedQuotes s newQuotes).objective_status.find?
      (fun st => st.objective_id = obj.id) with _ | st
  · simp only [hfind]
  · have hmem := List.mem_of_find?_eq_some hfind
    have hinv := hstat st hmem
    simp only [hfind, hinv]
    simp

end ResearchAgent

/-- Claim C1: the completion biconditional — every objective's `completed`
flag equals "its ObjectiveStatus has at least two supporting quotes" —
holds for every freshly initialized session state (all flags false, zero
quotes) and is preserved by every `saveExtractedQuotes` merge. -/
theorem completed_iff_two_quotes :
    (∀ (objectives : List String) (startingQuery : String)
        (persistentBlocked : List String),
        ResearchAgent.statusInvB
          (ResearchAgent.initializeResearchState objectives startingQuery
            persistentBlocked) = true ∧
        ResearchAgent.flagInvB
          (ResearchAgent.initializeResearchState objectives startingQuery
            persistentBlocked) = true) ∧
    (∀ (s : ResearchAgent.ResearchState)
        (newQuotes : List ResearchAgent.ExtractedQuote),
        ResearchAgent.statusInvB s = true →
        ResearchAgent.statusInvB (ResearchAgent.saveExtractedQuotes s newQuotes) = true ∧
        ResearchAgent.flagInvB (ResearchAgent.saveExtractedQuotes s newQuotes) = true) := by
  constructor
  · intro objectives startingQuery persistentBlocked
    constructor
    · rw [ResearchAgent.statusInvB, List.all_eq_true]
      intro st hst
      rcases List.mem_map.mp hst with ⟨obj, _, rfl⟩
      simp
    · rw [ResearchAgent.flagInvB, List.all_eq_true]
      intro obj hobj
      rcases List.mem_map.mp hobj with ⟨p, _, rfl⟩
      rcases hfind : (ResearchAgent.initializeResearchState objectives startingQuery
          persistentBlocked).objective_status.find?
          (fun st => st.objective_id =
            (ResearchAgent.ResearchObjective.mk (toString (p.1 + 1)) p.2 false).id)
          with _ | st
      · simp only [hfind]
      · have hmem := List.mem_of_find?_eq_some hfind
        rcases List.mem_map.mp hmem with ⟨obj2, _, rfl⟩
        simp only [hfind]
        simp
  · intro s newQuotes hs
    have hP : ResearchAgent.StatusInvP s.objective_status :=
      (ResearchAgent.statusInvB_iff s).mp hs
    exact ⟨(ResearchAgent.statusInvB_iff _).mpr
        (ResearchAgent.saveExtractedQuotes_statusInv s newQuotes hP),
      ResearchAgent.saveExtractedQuotes_flagInv s newQuotes hP⟩

/-- Claim C1 witness: the invariant theorem applied to a concrete
two-objective state and a concrete merge. -/
theorem completed_iff_two_quotes_witness :
    ResearchAgent.statusInvB
      (ResearchAgent.saveExtractedQuotes ResearchAgent.sampleState
        ResearchAgent.sampleQuotes) = true ∧
    ResearchAgent.flagInvB
      (ResearchAgent.saveExtractedQuotes ResearchAgent.sampleState
        ResearchAgent.sampleQuotes) = true :=
  completed_iff_two_quotes.2 ResearchAgent.sampleState ResearchAgent.sampleQuotes
    (by decide)

namespace ResearchAgent

theorem handleFetchError_frame (registry : List String) (state : ResearchState)
    (domain msg : String) :
    (handleFetchError registry state domain msg).2.accumulated_quotes =
        state.accumulated_quotes ∧
    (handleFetchError registry state domain msg).2.objective_status =
        state.objective_status ∧
    (handleFetchError registry state domain msg).2.source_tracker =
        state.source_tracker ∧
    (handleFetchError registry state domain msg).2.last_query = state.last_query ∧
    (handleFetchError registry state domain msg).2.objectives = state.objectives ∧
    (handleFetchError registry state domain msg).2.iteration_count =
        state.iteration_count := by
  rw [handleFetchError]
  rcases (DomainBlocking.classifyFetchError msg).type <;>
    exact ⟨rfl, rfl, rfl, rfl, rfl, rfl⟩

end ResearchAgent

/-- Claim C5: per-error side effects of the fetch error handler.  In all
three classification cases `accumulated_quotes`, `objective_status`,
`source_tracker` and `last_query` are untouched; a permanent block only
appends the hostname to the persisted registry (idempotently — its count
afterwards is `max count 1`, so it is never stored twice) and leaves the
research state unchanged; a session block only adds the hostname to the
in-memory `failed_domains` set and leaves the registry unwritten; a
continue classification changes nothing at all. -/
theorem fetch_error_side_effects (registry : List String)
    (state : ResearchAgent.ResearchState) (domain msg : String) :
    (ResearchAgent.handleFetchError registry state domain msg).2.accumulated_quotes =
        state.accumulated_quotes ∧
    (ResearchAgent.handleFetchError registry state domain msg).2.objective_status =
        state.objective_status ∧
    (ResearchAgent.handleFetchError registry state domain msg).2.source_tracker =
        state.source_tracker ∧
    (ResearchAgent.handleFetchError registry state domain msg).2.last_query =
        state.last_query ∧
    (match (DomainBlocking.classifyFetchError msg).type with
     | .permanent_block =>
        (ResearchAgent.handleFetchError registry state domain msg).1 =
            DomainBlocking.addToPersistentBlockedDomains registry domain ∧
        (ResearchAgent.handleFetchError registry state domain msg).2 = state ∧
        ((ResearchAgent.handleFetchError registry state domain msg).1.count domain =
            max (registry.count domain) 1)
     | .session_block =>
        (ResearchAgent.handleFetchError registry state domain msg).1 = registry ∧
        (ResearchAgent.handleFetchError registry state domain msg).2.failed_domains =
            setAdd state.failed_domains domain
     | .continue_research =>
        (ResearchAgent.handleFetchError registry state domain msg).1 = registry ∧
        (ResearchAgent.handleFetchError registry state domain msg).2 = state) := by
  obtain ⟨h1, h2, h3, h4, _, _⟩ :=
    ResearchAgent.handleFetchError_frame registry state domain msg
  refine ⟨h1, h2, h3, h4, ?_⟩
  rcases hty : (DomainBlocking.classifyFetchError msg).type
  · simp only [ResearchAgent.handleFetchError, hty]
    refine ⟨by trivial, by trivial, ?_⟩
    rw [DomainBlocking.addToPersistentBlockedDomains]
    split_ifs with hmem
    · have hpos : 0 < registry.count domain := List.count_pos_iff.mpr hmem
      omega
    · have hzero : registry.count domain = 0 :=
        List.count_eq_zero_of_not_mem hmem
      rw [List.count_append, hzero]
      simp
  · simp only [ResearchAgent.handleFetchError, hty]
    exact ⟨by trivial, by trivial⟩
  · simp only [ResearchAgent.handleFetchError, hty]
    exact ⟨by trivial, by trivial⟩

section SetLemmas

theorem mem_setAdd {l : List String} {x y : String} :
    y ∈ setAdd l x ↔ y ∈ l ∨ y = x := by
  rw [setAdd]
  split_ifs with h
  · constructor
    · exact Or.inl
    · rintro (hy | rfl)
      · exact hy
      · exact h
  · simp

theorem subset_setAdd (l : List String) (x : String) : l ⊆ setAdd l x :=
  fun _ hy => mem_setAdd.mpr (Or.inl hy)

theorem mem_foldl_setAdd (x : String) :
    ∀ (l acc : List String), x ∈ l.foldl setAdd acc ↔ x ∈ acc ∨ x ∈ l := by
  intro l
  induction l with
  | nil => intro acc; simp
  | cons y ys ih =>
    intro acc
    rw [List.foldl_cons, ih]
    rw [mem_setAdd]
    constructor
    · rintro ((h | rfl) | h)
      · exact Or.inl h
      · exact Or.inr (List.mem_cons_self _ _)
      · exact Or.inr (List.mem_cons_of_mem _ h)
    · rintro (h | h)
      · exact Or.inl (Or.inl h)
      · rcases List.mem_cons.mp h with rfl | h'
        · exact Or.inl (Or.inr rfl)
        · exact Or.inr h'

theorem mem_setOfList {x : String} {l : List String} :
    x ∈ setOfList l ↔ x ∈ l := by
  rw [setOfList, mem_foldl_setAdd]
  simp

end SetLemmas

namespace ResearchAgent

theorem handleFetchError_failed_mono (registry : List String)
    (state : ResearchState) (domain msg : String) :
    state.failed_domains ⊆
      (handleFetchError registry state domain msg).2.failed_domains := by
  rw [handleFetchError]
  rcases (DomainBlocking.classifyFetchError msg).type
  · exact fun _ h => h
  · exact subset_setAdd _ _
  · exact fun _ h => h

theorem saveExtractedQuotes_failed (s : ResearchState)
    (qs : List ExtractedQuote) :
    (saveExtractedQuotes s qs).failed_domains = s.failed_domains := rfl

theorem saveExtractedQuotes_objectives_nil (s : ResearchState)
    (qs : List ExtractedQuote) (h : s.objectives = []) :
    (saveExtractedQuotes s qs).objectives = [] := by
  show s.objectives.map _ = []
  rw [h]
  rfl

theorem analysisPhase_failed (o : Oracle) (iter : Nat) (s : ResearchState)
    (succ : List (String × Helpers.ExtractedContent)) :
    (analysisPhase o iter s succ).failed_domains = s.failed_domains := by
  rw [analysisPhase]
  have hfold : ∀ (l : List (String × Helpers.ExtractedContent))
      (acc : ResearchState × String), acc.1.failed_domains = s.failed_domains →
      (l.foldl (fun (acc : ResearchState × String) su =>
        let pr := o.plan iter su.1
        let quotes := pr.quotes.map (fun q =>
          ExtractedQuote.mk q.text su.1 q.objective_ids q.timestamp)
        let res := if quotes.isEmpty then acc.1 else saveExtractedQuotes acc.1 quotes
        let best := if pr.next_query ≠ "" ∧ acc.2 = "" then pr.next_query else acc.2
        (res, best)) acc).1.failed_domains = s.failed_domains := by
    intro l
    induction l with
    | nil => intro acc h; exact h
    | cons su sus ih =>
      intro acc h
      rw [List.foldl_cons]
      apply ih
      simp only []
      split_ifs
      · exact h
      · rw [saveExtractedQuotes_failed]; exact h
  split_ifs
  · exact hfold succ (s, "") rfl
  · exact hfold succ (s, "") rfl

theorem analysisPhase_objectives_nil (o : Oracle) (iter : Nat)
    (s : ResearchState) (succ : List (String × Helpers.ExtractedContent))
    (h : s.objectives = []) : (analysisPhase o iter s succ).objectives = [] := by
  rw [analysisPhase]
  have hfold : ∀ (l : List (String × Helpers.ExtractedContent))
      (acc : ResearchState × String), acc.1.objectives = [] →
      (l.foldl (fun (acc : ResearchState × String) su =>
        let pr := o.plan iter su.1
        let quotes := pr.quotes.map (fun q =>
          ExtractedQuote.mk q.text su.1 q.objective_ids q.timestamp)
        let res := if quotes.isEmpty then acc.1 else saveExtractedQuotes acc.1 quotes
        let best := if pr.next_query ≠ "" ∧ acc.2 = "" then pr.next_query else acc.2
        (res, best)) acc).1.objectives = [] := by
    intro l
    induction l with
    | nil => intro acc h2; exact h2
    | cons su sus ih =>
      intro acc h2
      rw [List.foldl_cons]
      apply ih
      simp only []
      split_ifs
      · exact h2
      · exact saveExtractedQuotes_objectives_nil _ _ h2
  split_ifs
  · exact hfold succ (s, "") h
  · exact hfold succ (s, "") h

theorem processFetch_failed_mono (o : Oracle) (iter : Nat)
    (acc : ResearchState × List String × List (String × Helpers.ExtractedContent))
    (url : String) :
    acc.1.failed_domains ⊆ (processFetch o iter acc url).1.failed_domains := by
  rw [processFetch]
  split
  · split_ifs
    · split
      · split_ifs
        · exact fun _ h => h
        · exact fun _ h => h
      · split
        · exact handleFetchError_failed_mono _ _ _ _
        · exact fun _ h => h
    · exact fun _ h => h
  · split
    · exact handleFetchError_failed_mono _ _ _ _
    · exact fun _ h => h

theorem processFetch_objectives (o : Oracle) (iter : Nat)
    (acc : ResearchState × List String × List (String × Helpers.ExtractedContent))
    (url : String) :
    (processFetch o iter acc url).1.objectives = acc.1.objectives := by
  rw [processFetch]
  split
  · split_ifs
    · split
      · split_ifs
        · rfl
        · rfl
      · split
        · exact (handleFetchError_frame _ _ _ _).2.2.2.2.1
        · rfl
    · rfl
  · split
    · exact (handleFetchError_frame _ _ _ _).2.2.2.2.1
    · rfl

end ResearchAgent

namespace ResearchAgent

theorem runIteration_reason (o : Oracle) (mc : Int) (iter : Nat) (rs : RunState) :
    (runIteration o mc iter rs).reason = rs.reason ∨
    (runIteration o mc iter rs).reason = TerminationReason.all_objectives_complete := by
  rw [runIteration]
  split
  · exact Or.inl rfl
  · dsimp only
    split
    · exact Or.inl rfl
    · repeat' split
      all_goals first | exact Or.inl rfl | exact Or.inr rfl

theorem runLoop_reason (o : Oracle) (mc : Int) :
    ∀ (fuel iter : Nat) (rs : RunState),
      (runLoop o mc iter fuel rs).reason = rs.reason ∨
      (runLoop o mc iter fuel rs).reason = TerminationReason.all_objectives_complete := by
  intro fuel
  induction fuel with
  | zero => intro iter rs; exact Or.inl rfl
  | succ n ih =>
    intro iter rs
    simp only [runLoop]
    split
    · exact runIteration_reason o mc iter rs
    · rcases ih (iter + 1) (runIteration o mc iter rs) with h | h
      · rw [h]
        exact runIteration_reason o mc iter rs
      · exact Or.inr h

theorem fetchFold_failed_mono (o : Oracle) (iter : Nat) :
    ∀ (urls : List String)
      (acc : ResearchState × List String × List (String × Helpers.ExtractedContent)),
      acc.1.failed_domains ⊆
        ((urls.foldl (processFetch o iter) acc).1).failed_domains := by
  intro urls
  induction urls with
  | nil => intro acc; exact fun _ h => h
  | cons u us ih =>
    intro acc
    rw [List.foldl_cons]
    exact List.Subset.trans (processFetch_failed_mono o iter acc u)
      (ih (processFetch o iter acc u))

theorem fetchFold_objectives (o : Oracle) (iter : Nat) :
    ∀ (urls : List String)
      (acc : ResearchState × List String × List (String × Helpers.ExtractedContent)),
      ((urls.foldl (processFetch o iter) acc).1).objectives = acc.1.objectives := by
  intro urls
  induction urls with
  | nil => intro acc; rfl
  | cons u us ih =>
    intro acc
    rw [List.foldl_cons, ih, processFetch_objectives]

theorem ite_analysis_failed (o : Oracle) (iter : Nat) (c : Prop) [Decidable c]
    (s2 : ResearchState) (succ : List (String × Helpers.ExtractedContent)) :
    (if c then s2 else analysisPhase o iter s2 succ).failed_domains =
      s2.failed_domains := by
  split
  · rfl
  · exact analysisPhase_failed o iter s2 succ

theorem ite_analysis_objectives_nil (o : Oracle) (iter : Nat) (c : Prop)
    [Decidable c] (s2 : ResearchState)
    (succ : List (String × Helpers.ExtractedContent)) (h : s2.objectives = []) :
    (if c then s2 else analysisPhase o iter s2 succ).objectives = [] := by
  split
  · exact h
  · exact analysisPhase_objectives_nil o iter s2 succ h

theorem shouldFetch_not_failed {state : ResearchState} {url d : String}
    (hs : shouldFetch state url = true)
    (hd : DomainBlocking.extractDomainFromUrl url = some d) :
    d ∉ state.failed_domains := by
  simp only [shouldFetch, hd, Bool.and_eq_true, Bool.not_eq_true'] at hs
  simpa using hs.2

theorem assess_allComplete_nil (s : ResearchState) (h : s.objectives = []) :
    (assessObjectiveCompletion s).allComplete = true := by
  simp [assessObjectiveCompletion, h]

theorem assess_incomplete_nil (s : ResearchState) (h : s.objectives = []) :
    (assessObjectiveCompletion s).incompleteObjectives = [] := by
  simp [assessObjectiveCompletion, h]

end ResearchAgent

namespace ResearchAgent

theorem fetchAnalyzePhase_failed_mono (o : Oracle) (iter : Nat)
    (research0 : ResearchState) (registry toFetch : List String) :
    research0.failed_domains ⊆
      (fetchAnalyzePhase o iter research0 registry toFetch).1.failed_domains := by
  rw [fetchAnalyzePhase]
  dsimp only
  rw [ite_analysis_failed]
  exact fetchFold_failed_mono o iter toFetch (research0, registry, [])

theorem fetchAnalyzePhase_objectives_nil (o : Oracle) (iter : Nat)
    (research0 : ResearchState) (registry toFetch : List String)
    (h : research0.objectives = []) :
    (fetchAnalyzePhase o iter research0 registry toFetch).1.objectives = [] := by
  rw [fetchAnalyzePhase]
  dsimp only
  apply ite_analysis_objectives_nil
  rw [fetchFold_objectives]
  exact h

theorem runIteration_blockInv (reg0 : List String) (o : Oracle) (mc : Int)
    (iter : Nat) (rs : RunState) (h : BlockInv reg0 rs) :
    BlockInv reg0 (runIteration o mc iter rs) := by
  obtain ⟨h1, h2⟩ := h
  rw [runIteration]
  split
  · exact ⟨h1, h2⟩
  · dsimp only
    split
    · exact ⟨h1, h2⟩
    · split
      all_goals {
        refine ⟨fun d hd => ?_, fun url hurl d hdom hdreg => ?_⟩
        · exact fetchAnalyzePhase_failed_mono o iter _ _ _ (h1 d hd)
        · rcases List.mem_append.mp hurl with hold | hnew
          · exact h2 url hold d hdom hdreg
          · have hsf := (List.mem_filter.mp hnew).2
            exact shouldFetch_not_failed hsf hdom (h1 d hdreg)
      }

theorem runLoop_blockInv (reg0 : List String) (o : Oracle) (mc : Int) :
    ∀ (fuel iter : Nat) (rs : RunState), BlockInv reg0 rs →
      BlockInv reg0 (runLoop o mc iter fuel rs) := by
  intro fuel
  induction fuel with
  | zero => intro iter rs h; exact h
  | succ n ih =>
    intro iter rs h
    simp only [runLoop]
    split
    · exact runIteration_blockInv reg0 o mc iter rs h
    · exact ih (iter + 1) _ (runIteration_blockInv reg0 o mc iter rs h)

theorem runResearch_blockInv (o : Oracle) (params : ResearchAgentParams)
    (registry0 : List String) :
    BlockInv registry0 (runResearch o params registry0) := by
  apply runLoop_blockInv
  constructor
  · intro d hd
    show d ∈ setOfList registry0
    exact mem_setOfList.mpr hd
  · intro url hurl
    cases hurl

theorem runIteration_completes_of_no_objectives (o : Oracle) (mc : Int)
    (iter : Nat) (rs : RunState) (hobj : rs.research.objectives = [])
    (content : String) (hsearch : o.search iter = Except.ok content)
    (hurls : (Helpers.extractLinksWithPriority content rs.currentQuery 3).isEmpty
      = false) :
    (runIteration o mc iter rs).done = true ∧
    (runIteration o mc iter rs).reason =
      TerminationReason.all_objectives_complete := by
  simp only [runIteration, hsearch]
  rw [if_neg (by simp [hurls])]
  split
  · exact ⟨rfl, rfl⟩
  · rename_i hcomp
    have hobj0 : ({ rs.research with iteration_count := iter } :
        ResearchState).objectives = [] := hobj
    exact absurd
      (assess_allComplete_nil _
        (fetchAnalyzePhase_objectives_nil o iter _ _ _ hobj0)) hcomp

end ResearchAgent

/-- Claim C9: for every caller input, every starting registry and every
behaviour of the external search/fetch/plan capability, the returned
`termination_reason` is never `no_new_information`: it is always either
`all_objectives_complete` or `max_calls_reached`. -/
theorem no_new_information_unreachable (o : ResearchAgent.Oracle)
    (params : ResearchAgent.ResearchAgentParams) (registry0 : List String) :
    (ResearchAgent.executeResearchAgent o params registry0).termination_reason ≠
      ResearchAgent.TerminationReason.no_new_information ∧
    ((ResearchAgent.executeResearchAgent o params registry0).termination_reason =
        ResearchAgent.TerminationReason.all_objectives_complete ∨
     (ResearchAgent.executeResearchAgent o params registry0).termination_reason =
        ResearchAgent.TerminationReason.max_calls_reached) := by
  have h := ResearchAgent.runLoop_reason o (ResearchAgent.effectiveMaxCalls params)
    (ResearchAgent.effectiveMaxCalls params).toNat 1
    { research := ResearchAgent.initializeResearchState params.objectives
        params.starting_query registry0
      registry := registry0
      currentQuery := params.starting_query
      reason := ResearchAgent.TerminationReason.max_calls_reached
      done := false
      fetched := [] }
  have hre : (ResearchAgent.executeResearchAgent o params registry0).termination_reason =
      (ResearchAgent.runLoop o (ResearchAgent.effectiveMaxCalls params) 1
        (ResearchAgent.effectiveMaxCalls params).toNat
        { research := ResearchAgent.initializeResearchState params.objectives
            params.starting_query registry0
          registry := registry0
          currentQuery := params.starting_query
          reason := ResearchAgent.TerminationReason.max_calls_reached
          done := false
          fetched := [] }).reason := rfl
  rw [hre]
  rcases h with h | h
  · rw [h]
    exact ⟨fun hc => ResearchAgent.TerminationReason.noConfusion hc, Or.inr rfl⟩
  · rw [h]
    exact ⟨fun hc => ResearchAgent.TerminationReason.noConfusion hc, Or.inl rfl⟩

/-- Claim C6: at session start `failed_domains` is seeded from the
persisted blocklist and only grows, so after any run it still contains
every hostname persisted at session start; consequently a URL whose
extractable hostname was in the persisted blocklist at session start is
never in the fetch-invocation trace. -/
theorem session_inherits_persisted_blocks (o : ResearchAgent.Oracle)
    (params : ResearchAgent.ResearchAgentParams) (registry0 : List String) :
    (∀ d ∈ registry0,
        d ∈ (ResearchAgent.runResearch o params registry0).research.failed_domains) ∧
    (∀ url d, DomainBlocking.extractDomainFromUrl url = some d →
        d ∈ registry0 →
        url ∉ (ResearchAgent.runResearch o params registry0).fetched) := by
  have h := ResearchAgent.runResearch_blockInv o params registry0
  exact ⟨h.1, fun url d hdom hdreg hmem => h.2 url hmem d hdom hdreg⟩

/-- Claim C6 witness: with `blocked.com` persisted at session start and a
search that proposes a URL on that host, the fetch capability is never
invoked for it. -/
theorem session_inherits_persisted_blocks_witness :
    "http://blocked.com/x" ∉
      (ResearchAgent.runResearch ResearchAgent.blockedHostOracle
        ResearchAgent.blockedRunParams ["blocked.com"]).fetched :=
  (session_inherits_persisted_blocks ResearchAgent.blockedHostOracle
      ResearchAgent.blockedRunParams ["blocked.com"]).2
    "http://blocked.com/x" "blocked.com" (by decide) (by decide)

/-- Claim C10: with an empty objectives list, `assessObjectiveCompletion`
reports vacuous completion (`allComplete = true`, no incomplete
objectives — the rate is the JavaScript `0/0`), and any session started
with zero objectives whose first iteration reaches the completion
assessment (its search succeeds and yields at least one candidate URL)
terminates with `all_objectives_complete` instead of rejecting the empty
input. -/
theorem empty_objectives_vacuously_complete :
    (∀ s : ResearchAgent.ResearchState, s.objectives = [] →
        (ResearchAgent.assessObjectiveCompletion s).allComplete = true ∧
        (ResearchAgent.assessObjectiveCompletion s).incompleteObjectives = []) ∧
    (∀ (o : ResearchAgent.Oracle) (params : ResearchAgent.ResearchAgentParams)
        (registry0 : List String) (content : String),
        params.objectives = [] →
        o.search 1 = Except.ok content →
        (Helpers.extractLinksWithPriority content params.starting_query 3).isEmpty
          = false →
        1 ≤ ResearchAgent.effectiveMaxCalls params →
        (ResearchAgent.executeResearchAgent o params registry0).termination_reason =
          ResearchAgent.TerminationReason.all_objectives_complete) := by
  constructor
  · intro s h
    exact ⟨ResearchAgent.assess_allComplete_nil s h,
      ResearchAgent.assess_incomplete_nil s h⟩
  · intro o params registry0 content hobj hsearch hurls hmax
    obtain ⟨n, hn⟩ : ∃ n, (ResearchAgent.effectiveMaxCalls params).toNat = n + 1 :=
      ⟨(ResearchAgent.effectiveMaxCalls params).toNat - 1, by omega⟩
    have hobj0 : (ResearchAgent.initializeResearchState params.objectives
        params.starting_query registry0).objectives = [] := by
      show params.objectives.enum.map _ = []
      rw [hobj]
      rfl
    have hstep := ResearchAgent.runIteration_completes_of_no_objectives o
      (ResearchAgent.effectiveMaxCalls params) 1
      { research := ResearchAgent.initializeResearchState params.objectives
          params.starting_query registry0
        registry := registry0
        currentQuery := params.starting_query
        reason := ResearchAgent.TerminationReason.max_calls_reached
        done := false
        fetched := [] }
      hobj0 content hsearch hurls
    have hre : (ResearchAgent.executeResearchAgent o params registry0).termination_reason =
        (ResearchAgent.runLoop o (ResearchAgent.effectiveMaxCalls params) 1
          (ResearchAgent.effectiveMaxCalls params).toNat
          { research := ResearchAgent.initializeResearchState params.objectives
              params.starting_query registry0
            registry := registry0
            currentQuery := params.starting_query
            reason := ResearchAgent.TerminationReason.max_calls_reached
            done := false
            fetched := [] }).reason := rfl
    rw [hre, hn]
    simp only [ResearchAgent.runLoop]
    rw [if_pos hstep.1]
    exact hstep.2

/-- Claim C10 witness: a concrete zero-objective session whose first
search yields one candidate URL terminates `all_objectives_complete`. -/
theorem empty_objectives_vacuously_complete_witness :
    (ResearchAgent.executeResearchAgent ResearchAgent.urlOracle
      ResearchAgent.noObjectivesParams []).termination_reason =
      ResearchAgent.TerminationReason.all_objectives_complete :=
  empty_objectives_vacuously_complete.2 ResearchAgent.urlOracle
    ResearchAgent.noObjectivesParams [] "see http://example.com/a now"
    rfl rfl (by with_unfolding_all decide) (by decide)

/-- Claim C3 counterexample: with empty objectives AND an empty starting
query, `executeResearchAgent` does not fail and does not stay idle — it
runs its first iteration, invokes the external fetch capability for the
search candidate, and returns a normal structured result (here even
`all_objectives_complete`), so no input-validation error exists. -/
theorem empty_inputs_run_loop_and_fetch :
    (ResearchAgent.runResearch ResearchAgent.urlOracle
        ResearchAgent.emptyInputParams []).fetched = ["http://example.com/a"] ∧
    (ResearchAgent.executeResearchAgent ResearchAgent.urlOracle
        ResearchAgent.emptyInputParams []).iteration_count = 1 ∧
    (ResearchAgent.executeResearchAgent ResearchAgent.urlOracle
        ResearchAgent.emptyInputParams []).termination_reason =
      ResearchAgent.TerminationReason.all_objectives_complete := by
  refine ⟨?_, ?_, ?_⟩ <;> with_unfolding_all decide

/-- Claim C3 (amended): `executeResearchAgent` performs no input
validation — with empty objectives or an empty starting query it still
returns a structured result whose termination reason is one of the two
normal terminal reasons, for every oracle behaviour, every registry and
every `max_calls` value. -/
theorem empty_inputs_accepted (o : ResearchAgent.Oracle)
    (registry0 : List String) (maxc : Option Int) :
    ((ResearchAgent.executeResearchAgent o ⟨[], "", maxc, none, none⟩
        registry0).termination_reason =
      ResearchAgent.TerminationReason.all_objectives_complete ∨
     (ResearchAgent.executeResearchAgent o ⟨[], "", maxc, none, none⟩
        registry0).termination_reason =
      ResearchAgent.TerminationReason.max_calls_reached) := by
  have h := ResearchAgent.runLoop_reason o
    (ResearchAgent.effectiveMaxCalls ⟨[], "", maxc, none, none⟩)
    (ResearchAgent.effectiveMaxCalls ⟨[], "", maxc, none, none⟩).toNat 1
    { research := ResearchAgent.initializeResearchState [] "" registry0
      registry := registry0
      currentQuery := ""
      reason := ResearchAgent.TerminationReason.max_calls_reached
      done := false
      fetched := [] }
  have hre : (ResearchAgent.executeResearchAgent o ⟨[], "", maxc, none, none⟩
      registry0).termination_reason =
      (ResearchAgent.runLoop o
        (ResearchAgent.effectiveMaxCalls ⟨[], "", maxc, none, none⟩) 1
        (ResearchAgent.effectiveMaxCalls ⟨[], "", maxc, none, none⟩).toNat
        { research := ResearchAgent.initializeResearchState [] "" registry0
          registry := registry0
          currentQuery := ""
          reason := ResearchAgent.TerminationReason.max_calls_reached
          done := false
          fetched := [] }).reason := rfl
  rw [hre]
  rcases h with h | h
  · rw [h]
    exact Or.inr rfl
  · rw [h]
    exact Or.inl rfl
